import Mathlib

/-!
Verification of the interaction log store, the grouped/paginated history
query engine, and the correction relevance matcher of the FairBot backend
(`BACKEND/lambda_function.py`).

The DynamoDB items are embedded as a structure of optional string fields;
the handlers become pure functions over lists of items.  Python's string
comparison (used by `sorted(..., key=...)` and `max(...)` on ISO-8601
timestamp strings) is lexicographic on code points, embedded here as
`strLtb` on `List Char`.  Python's `sorted`/`list.sort` is a stable sort
producing a non-decreasing (resp. non-increasing with `reverse=True`)
order; `List.insertionSort` with the matching non-strict relation is the
same function extensionally, placing each element before the first
already-placed element it may precede.
-/

namespace FairBot

/-- A DynamoDB item of the `fairbot-agent-history` table.  Every attribute
is optional: the Python code accesses attributes with `item.get(...)`. -/
structure Item where
  SessionId : Option String := none
  InteractionId : Option String := none
  Timestamp : Option String := none
  EventType : Option String := none
  Timestamp_EventType : Option String := none
  Content : Option String := none
  UserQuestion : Option String := none
  OriginalAIResponse : Option String := none
  AdminId : Option String := none
  CorrectionTimestamp : Option String := none
deriving DecidableEq

/-- Python truthiness of an optional string value (`if value:`):
`None` and the empty string are falsy. -/
def truthy : Option String → Bool
  | none => false
  | some s => !(s == "")

/-- Python string `<` : lexicographic comparison by code point. -/
def strLtb : List Char → List Char → Bool
  | _, [] => false
  | [], _ :: _ => true
  | a :: as, b :: bs =>
    if a.toNat < b.toNat then true
    else if b.toNat < a.toNat then false
    else strLtb as bs

/-- Python string `<` on `String`. -/
def ltb (a b : String) : Bool := strLtb a.data b.data

/-- Python string `<=` on `String` (total order: `a <= b` iff `not (b < a)`). -/
def leb (a b : String) : Bool := !(ltb b a)

/-- The `Timestamp` attribute, defaulting to the empty string.  The code
only reads `item['Timestamp']` on items already known to carry one. -/
def tsOf (it : Item) : String := it.Timestamp.getD ""

/-- Presence test `'Timestamp' in item`. -/
def hasTimestamp (it : Item) : Bool := it.Timestamp.isSome

/-- The folding step of Python's `max` over a group's timestamps: keep the
current maximum unless a strictly larger timestamp appears. -/
def maxStep (m : String) (x : Item) : String := if ltb m (tsOf x) then tsOf x else m

/-- Ascending member order inside a group: the Python code sorts the
members of each interaction group with `sorted(valid_items, key=lambda x:
x['Timestamp'])`, a stable sort into non-decreasing timestamp order. -/
def memberLe (a b : Item) : Prop := leb (tsOf a) (tsOf b) = true

instance : DecidableRel memberLe := fun a b => Bool.decEq (leb (tsOf a) (tsOf b)) true

/-- Descending group order: `interaction_id_sort_keys.sort(key=lambda x:
x[0], reverse=True)`, a stable sort into non-increasing order of the first
component (the group's latest timestamp). -/
def keyGe (a b : String × String) : Prop := leb b.1 a.1 = true

instance : DecidableRel keyGe := fun a b => Bool.decEq (leb b.1 a.1) true

/-- Step 2 of `handle_admin_history_request`: the insertion-ordered keys of
the `grouped_interactions` dict.  An item enters a group only when its
`InteractionId` is truthy (`if interaction_id:`); a Python dict keeps keys
in first-insertion order. -/
def groupKeys (allItems : List Item) : List String :=
  allItems.foldl
    (fun ks it =>
      match it.InteractionId with
      | none => ks
      | some iid => if iid = "" then ks else if iid ∈ ks then ks else ks ++ [iid])
    []

/-- The members of the group of `iid`, in fetch order: the value
`grouped_interactions[iid]` right after step 2. -/
def groupMembers (allItems : List Item) (iid : String) : List Item :=
  allItems.filter (fun it => it.InteractionId == some iid)

/-- Step 3: the group of `iid` with timestamp-less members filtered out and
the rest stably sorted ascending by `Timestamp` (conversation order). -/
def sortedGroup (allItems : List Item) (iid : String) : List Item :=
  List.insertionSort memberLe ((groupMembers allItems iid).filter hasTimestamp)

/-- Evaluation of `max(item['Timestamp'] for item in items)` over a non-empty list:
Python's `max` keeps the current maximum unless a strictly larger element
appears. -/
def maxTs : List Item → String
  | [] => ""
  | it :: rest => rest.foldl maxStep (tsOf it)

/-- Step 4: the `(latest_timestamp, interaction_id)` sort keys, one per
group that still has members after the timestamp filter (`if items:`). -/
def interactionIdSortKeys (allItems : List Item) : List (String × String) :=
  (groupKeys allItems).filterMap (fun iid =>
    let g := sortedGroup allItems iid
    if g.isEmpty then none else some (maxTs g, iid))

/-- Step 5: the sort keys stably sorted by latest timestamp, descending. -/
def orderedInteractionKeys (allItems : List Item) : List (String × String) :=
  List.insertionSort keyGe (interactionIdSortKeys allItems)

/-- The ordered interaction ids (`ordered_interaction_ids`). -/
def ordered_interaction_ids (allItems : List Item) : List String :=
  (orderedInteractionKeys allItems).map Prod.snd

/-- Count `len([item for item in all_items if item.get('EventType') == et])`. -/
def countEventType (allItems : List Item) (et : String) : Nat :=
  (allItems.filter (fun it => it.EventType == some et)).length

/-- Count `len(set(item.get('SessionId') for item in all_items if
item.get('SessionId')))`: distinct truthy session ids. -/
def uniqueSessionCount (allItems : List Item) : Nat :=
  ((allItems.filterMap Item.SessionId).filter (fun s => !(s == ""))).dedup.length

/-- Ceiling division `total_pages = (total_interaction_groups + limit - 1) // limit`. -/
def total_pages_of (allItems : List Item) (limit : Nat) : Nat :=
  ((ordered_interaction_ids allItems).length + limit - 1) / limit

/-- Step 6: `ordered_interaction_ids[(page-1)*limit : (page-1)*limit + limit]`
(Python list slicing, for `page ≥ 1`). -/
def paginated_interaction_ids (allItems : List Item) (page limit : Nat) : List String :=
  ((ordered_interaction_ids allItems).drop ((page - 1) * limit)).take limit

/-- The JSON payload assembled by `handle_admin_history_request`: the
`summary` counters, the flattened `history` list and the `meta` block. -/
structure HistoryResponse where
  totalInteractionGroups : Nat
  totalIndividualLogEntries : Nat
  totalQuestions : Nat
  totalAIResponses : Nat
  totalAdminCorrections : Nat
  uniqueSessions : Nat
  history : List Item
  current_page : Nat
  total_pages : Nat
  limit_per_page : Nat
deriving DecidableEq

/-- The pure core of `handle_admin_history_request`, taking the already
fetched `all_items` list (step 1) and the validated `page`/`limit` query
parameters. -/
def handle_admin_history_request (allItems : List Item) (page limit : Nat) :
    HistoryResponse :=
  { totalInteractionGroups := (ordered_interaction_ids allItems).length
    totalIndividualLogEntries := allItems.length
    totalQuestions := countEventType allItems "QUESTION"
    totalAIResponses := countEventType allItems "AI_RESPONSE"
    totalAdminCorrections := countEventType allItems "ADMIN_CORRECTION"
    uniqueSessions := uniqueSessionCount allItems
    history :=
      ((paginated_interaction_ids allItems page limit).map (sortedGroup allItems)).flatten
    current_page := page
    total_pages := total_pages_of allItems limit
    limit_per_page := limit }

/-- The item written by `_log_user_question`. -/
def question_item (session_id user_question interaction_id timestamp_str : String) : Item :=
  { SessionId := some session_id
    InteractionId := some interaction_id
    Timestamp := some timestamp_str
    EventType := some "QUESTION"
    Timestamp_EventType := some (timestamp_str ++ "#QUESTION")
    Content := some user_question }

/-- The item written by `_log_ai_response`. -/
def ai_response_item (session_id ai_response user_question interaction_id timestamp_str : String) : Item :=
  { SessionId := some session_id
    InteractionId := some interaction_id
    Timestamp := some timestamp_str
    EventType := some "AI_RESPONSE"
    Timestamp_EventType := some (timestamp_str ++ "#AI_RESPONSE")
    Content := some ai_response
    UserQuestion := some user_question }

/-- Write path `_log_user_question`: `put_item` appends one QUESTION record to the
(append-only) store. -/
def _log_user_question (store : List Item) (session_id user_question interaction_id timestamp_str : String) : List Item :=
  store ++ [question_item session_id user_question interaction_id timestamp_str]

/-- Write path `_log_ai_response`: `put_item` appends one AI_RESPONSE record. -/
def _log_ai_response (store : List Item) (session_id ai_response user_question interaction_id timestamp_str : String) : List Item :=
  store ++ [ai_response_item session_id ai_response user_question interaction_id timestamp_str]

/-- The DynamoDB contract of the `EventType_Timestamp_Index` GSI query in
`fetch_all_items_for_event_type`, with all pages already concatenated: the
items carrying the index keys (`EventType` equal to the partition key and a
`Timestamp`), optionally filtered by `SessionId = :sid` (only when the
filter value is truthy: `if session_id_filter:`), in descending `Timestamp`
order (`ScanIndexForward=False`). -/
def queryIndexItems (store : List Item) (event_type : String) (sessionFilter : Option String) : List Item :=
  List.insertionSort (fun a b => keyGe (tsOf a, "") (tsOf b, ""))
    (store.filter (fun it =>
      it.EventType == some event_type && hasTimestamp it &&
        (if truthy sessionFilter then it.SessionId == sessionFilter else true)))

/-- Step 1 of `handle_admin_history_request`: the three full fetches, in
source order (AI_RESPONSE, then QUESTION, then ADMIN_CORRECTION). -/
def fetched_all_items (store : List Item) (sessionFilter : Option String) : List Item :=
  queryIndexItems store "AI_RESPONSE" sessionFilter ++
    queryIndexItems store "QUESTION" sessionFilter ++
      queryIndexItems store "ADMIN_CORRECTION" sessionFilter

/-- Endpoint `GET /admin/history` end to end against a store state. -/
def getHistory (store : List Item) (sessionFilter : Option String) (page limit : Nat) :
    HistoryResponse :=
  handle_admin_history_request (fetched_all_items store sessionFilter) page limit

/-- Lower-casing of one character (`str.lower()` restricted to ASCII, the
alphabet of every string this code compares). -/
def charToLower (c : Char) : Char :=
  if 'A'.toNat ≤ c.toNat ∧ c.toNat ≤ 'Z'.toNat then Char.ofNat (c.toNat + 32) else c

/-- Lower-casing `s.lower()` of a whole string. -/
def toLowerStr (s : String) : String := String.mk (s.data.map charToLower)

/-- A word character of the regex `\w` (ASCII: letters, digits, underscore). -/
def isWordChar (c : Char) : Bool :=
  ('a'.toNat ≤ c.toNat && c.toNat ≤ 'z'.toNat) ||
    ('A'.toNat ≤ c.toNat && c.toNat ≤ 'Z'.toNat) ||
      ('0'.toNat ≤ c.toNat && c.toNat ≤ '9'.toNat) || c = '_'

/-- Accumulator pass of `re.findall(r'\b\w+\b', s)`: collects the maximal
runs of word characters. -/
def tokenizeAux : List Char → List Char → List String
  | [], acc => if acc.isEmpty then [] else [String.mk acc.reverse]
  | c :: cs, acc =>
    if isWordChar c then tokenizeAux cs (c :: acc)
    else if acc.isEmpty then tokenizeAux cs []
    else String.mk acc.reverse :: tokenizeAux cs []

/-- Tokenization `re.findall(r'\b\w+\b', s)`: the word tokens of `s`, in order.  (The
Python code wraps them in `set(...)`; the code only tests membership, for
which the list is equivalent.) -/
def findWordTokens (s : String) : List String := tokenizeAux s.data []

/-- The combined candidate text of `get_relevant_admin_corrections`:
`correction.get('UserQuestion', '').lower() + " " +
correction.get('OriginalAIResponse', '').lower() + " " +
correction.get('Content', '').lower()`. -/
def correction_text (c : Item) : String :=
  toLowerStr (c.UserQuestion.getD "") ++ " " ++
    toLowerStr (c.OriginalAIResponse.getD "") ++ " " ++
      toLowerStr (c.Content.getD "")

/-- The relevance test of `get_relevant_admin_corrections`:
`any(keyword in correction_keywords for keyword in query_keywords if
len(keyword) > 2)`. -/
def isRelevant (user_query : String) (c : Item) : Bool :=
  let query_keywords := findWordTokens (toLowerStr user_query)
  let correction_keywords := findWordTokens (correction_text c)
  query_keywords.any (fun k => decide (2 < k.length) && decide (k ∈ correction_keywords))

/-- The selection loop of `get_relevant_admin_corrections`: walk the
fetched corrections in order, keep the relevant ones, and `break` as soon
as three have been collected. -/
def selectRelevantAux (user_query : String) : List Item → List Item → List Item
  | acc, [] => acc
  | acc, c :: rest =>
    if isRelevant user_query c then
      if 3 ≤ (acc ++ [c]).length then acc ++ [c]
      else selectRelevantAux user_query (acc ++ [c]) rest
    else selectRelevantAux user_query acc rest

/-- The relevant corrections the tool selects from the fetched list. -/
def relevant_corrections (user_query : String) (admin_corrections : List Item) : List Item :=
  selectRelevantAux user_query [] admin_corrections

/-- The tool's fetch: the GSI query for ADMIN_CORRECTION records with
`ScanIndexForward=False, Limit=20` — the 20 most recent corrections,
newest first. -/
def recent_admin_corrections (store : List Item) : List Item :=
  (queryIndexItems store "ADMIN_CORRECTION" none).take 20

/-- One formatted correction block of the tool's reply. -/
def formatCorrection (c : Item) : String :=
  "User Question: " ++ c.UserQuestion.getD "N/A" ++ "\n" ++
    "Original AI Response: " ++ c.OriginalAIResponse.getD "N/A" ++ "\n" ++
      "Corrected AI Response: " ++ c.Content.getD "N/A"

/-- Joining `"\n---\n".join(blocks)`. -/
def joinSep (sep : String) : List String → String
  | [] => ""
  | [s] => s
  | s :: rest => s ++ sep ++ joinSep sep rest

/-- Tool `get_relevant_admin_corrections` as a function of the fetch outcome:
a `ClientError` raised by the DynamoDB query is caught and turned into the
error reply string; otherwise the relevant corrections are selected and
formatted, with a fixed reply when none qualify. -/
def get_relevant_admin_corrections (fetchResult : Except String (List Item)) (user_query : String) : String :=
  match fetchResult with
  | Except.error e => "An error occurred while retrieving admin corrections: " ++ e
  | Except.ok admin_corrections =>
    let rel := relevant_corrections user_query admin_corrections
    if rel.isEmpty then "No relevant administrative corrections found."
    else "Relevant past administrative corrections:\n" ++ joinSep "\n---\n" (rel.map formatCorrection)

/-- The body of a `POST /admin/correct` request, after JSON parsing
(`body.get(...)` for each field). -/
structure CorrectionRequest where
  sessionId : Option String := none
  interactionId : Option String := none
  userQuestion : Option String := none
  originalAIResponse : Option String := none
  correctedAIResponse : Option String := none
  adminId : Option String := none
  correctionTimestamp : Option String := none
deriving DecidableEq

/-- Validation `all([session_id, interaction_id, user_question, original_ai_response,
corrected_ai_response])` — Python truthiness of the five required fields. -/
def requiredFieldsPresent (req : CorrectionRequest) : Bool :=
  truthy req.sessionId && truthy req.interactionId && truthy req.userQuestion &&
    truthy req.originalAIResponse && truthy req.correctedAIResponse

/-- The names of the required fields a request fails to provide (used to
state what a "precise list of missing fields" would have to determine). -/
def missingRequiredFields (req : CorrectionRequest) : List String :=
  (if truthy req.sessionId then [] else ["sessionId"]) ++
    (if truthy req.interactionId then [] else ["interactionId"]) ++
      (if truthy req.userQuestion then [] else ["userQuestion"]) ++
        (if truthy req.originalAIResponse then [] else ["originalAIResponse"]) ++
          (if truthy req.correctedAIResponse then [] else ["correctedAIResponse"])

/-- The status code and message of an API Gateway reply. -/
structure ApiResponse where
  statusCode : Nat
  message : String
deriving DecidableEq

/-- Handler `handle_admin_correction`: validate, then `put_item` the
ADMIN_CORRECTION record.  `now` is the write-time timestamp
(`get_utc_timestamp_str()`); the result pairs the HTTP reply with the
resulting store state. -/
def handle_admin_correction (req : CorrectionRequest) (now : String) (store : List Item) :
    ApiResponse × List Item :=
  if requiredFieldsPresent req then
    (⟨200, "Admin correction saved successfully."⟩,
      store ++
        [{ SessionId := req.sessionId
           InteractionId := req.interactionId
           Timestamp := some now
           EventType := some "ADMIN_CORRECTION"
           Timestamp_EventType := some (now ++ "#ADMIN_CORRECTION")
           Content := req.correctedAIResponse
           UserQuestion := req.userQuestion
           OriginalAIResponse := req.originalAIResponse
           AdminId := if truthy req.adminId then req.adminId else none
           CorrectionTimestamp :=
             some (if truthy req.correctionTimestamp then req.correctionTimestamp.getD now else now) }])
  else
    (⟨400, "Missing required fields for admin correction."⟩, store)

/-- The fetch loop of `fetch_all_items_for_event_type`, with the backend
abstracted as a response function: `resp tok` is the page of items and the
`LastEvaluatedKey` the DynamoDB query returns for `ExclusiveStartKey = tok`
(`none` for the first request).  The loop is run with explicit fuel so that
its termination is a theorem, not an assumption: `none` means the fuel ran
out before the backend stopped returning continuation keys. -/
def run_fetch_loop (resp : Option Nat → List Item × Option Nat) :
    Nat → Option Nat → Option (List Item)
  | 0, _ => none
  | fuel + 1, tok =>
    match (resp tok).2 with
    | none => some (resp tok).1
    | some t =>
      match run_fetch_loop resp fuel (some t) with
      | none => none
      | some rest => some ((resp tok).1 ++ rest)

/-- Fetch `fetch_all_items_for_event_type`: the loop started with no
`ExclusiveStartKey`. -/
def fetch_all_items_for_event_type (resp : Option Nat → List Item × Option Nat) (fuel : Nat) :
    Option (List Item) :=
  run_fetch_loop resp fuel none

/-- The backend's continuation chain from a given token is finite with `n`
pages whose concatenation is the result list:  either the response at `tok`
carries no `LastEvaluatedKey`, or it carries one and the chain from there
is one page shorter. -/
inductive PageChain (resp : Option Nat → List Item × Option Nat) :
    Option Nat → List Item → Nat → Prop
  | last (tok : Option Nat) (items : List Item) :
      resp tok = (items, none) → PageChain resp tok items 1
  | step (tok : Option Nat) (items : List Item) (t : Nat) (rest : List Item) (n : Nat) :
      resp tok = (items, some t) → PageChain resp (some t) rest n →
        PageChain resp tok (items ++ rest) (n + 1)

/-! ### Concrete inputs used to witness the theorems -/

/-- A store holding one complete exchange: a question and its answer. -/
def ex_store : List Item :=
  _log_ai_response
    (_log_user_question [] "s1" "does mileage have limits" "i1" "2024-01-01T00:00:00.000Z")
    "s1" "our rentals include unlimited mileage" "does mileage have limits" "i1"
    "2024-01-01T00:00:05.000Z"

/-- The correction of the spec's matching example. -/
def mileage_correction : Item :=
  { SessionId := some "s1"
    InteractionId := some "i9"
    Timestamp := some "2024-01-03T00:00:00.000Z"
    EventType := some "ADMIN_CORRECTION"
    Content := some "unlimited mileage applies to all rentals" }

/-- Twenty-five single-question interaction groups with pairwise distinct
interaction ids and timestamps. -/
def ex25 : List Item :=
  (List.range 25).map (fun i =>
    { InteractionId := some (String.mk [Char.ofNat (65 + i)])
      Timestamp := some (String.mk [Char.ofNat (65 + i)])
      EventType := some "QUESTION"
      SessionId := some "s" })

/-- A record carrying no `InteractionId`. -/
def item_without_interaction_id : Item :=
  { SessionId := some "s1"
    Timestamp := some "2024-01-01T00:00:00.000Z"
    EventType := some "QUESTION"
    Content := some "hello" }

/-- A record carrying an `InteractionId` but no `Timestamp`. -/
def timestampless_item : Item :=
  { SessionId := some "s1"
    InteractionId := some "g1"
    EventType := some "QUESTION"
    Content := some "hi" }

/-- A correction request lacking only `sessionId`. -/
def req_missing_sessionId : CorrectionRequest :=
  { interactionId := some "i1"
    userQuestion := some "q"
    originalAIResponse := some "o"
    correctedAIResponse := some "c" }

/-- A correction request lacking only `correctedAIResponse`. -/
def req_missing_correctedAIResponse : CorrectionRequest :=
  { sessionId := some "s1"
    interactionId := some "i1"
    userQuestion := some "q"
    originalAIResponse := some "o" }

/-- First backend page of the two-page fetch example. -/
def page_one : List Item :=
  [question_item "s1" "q1" "i1" "2024-01-01T00:00:00.000Z"]

/-- Second backend page of the two-page fetch example. -/
def page_two : List Item :=
  [question_item "s1" "q2" "i2" "2024-01-02T00:00:00.000Z"]

/-- A backend whose response chain has two pages: the first response carries
a `LastEvaluatedKey`, the second does not. -/
def two_page_resp : Option Nat → List Item × Option Nat
  | none => (page_one, some 1)
  | some _ => (page_two, none)

/-! ### Order lemmas for the comparators -/

theorem strLtb_nil_right : ∀ a : List Char, strLtb a [] = false
  | [] => rfl
  | _ :: _ => rfl

theorem strLtb_nil_cons (b : Char) (bs : List Char) : strLtb [] (b :: bs) = true := rfl

theorem strLtb_cons_cons (a b : Char) (as bs : List Char) :
    strLtb (a :: as) (b :: bs) =
      if a.toNat < b.toNat then true
      else if b.toNat < a.toNat then false
      else strLtb as bs := rfl

theorem strLtb_irrefl : ∀ l : List Char, strLtb l l = false
  | [] => rfl
  | a :: as => by
    rw [strLtb_cons_cons, if_neg (Nat.lt_irrefl _), if_neg (Nat.lt_irrefl _)]
    exact strLtb_irrefl as

theorem strLtb_asymm : ∀ a b : List Char, strLtb a b = true → strLtb b a = false
  | a, [], h => by rw [strLtb_nil_right] at h; cases h
  | [], b :: bs, _ => strLtb_nil_right _
  | a :: as, b :: bs, h => by
    rw [strLtb_cons_cons] at h
    rw [strLtb_cons_cons]
    by_cases hab : a.toNat < b.toNat
    · rw [if_neg (Nat.lt_asymm hab), if_pos hab]
    · by_cases hba : b.toNat < a.toNat
      · rw [if_neg hab, if_pos hba] at h; cases h
      · rw [if_neg hab, if_neg hba] at h
        rw [if_neg hba, if_neg hab]
        exact strLtb_asymm as bs h

theorem strLtb_neg_trans :
    ∀ a b c : List Char, strLtb b a = false → strLtb c b = false → strLtb c a = false
  | [], _, c, _, _ => strLtb_nil_right c
  | _ :: _, [], _, h1, _ => by rw [strLtb_nil_cons] at h1; cases h1
  | _ :: _, _ :: _, [], _, h2 => by rw [strLtb_nil_cons] at h2; cases h2
  | x :: as, y :: bs, z :: cs, h1, h2 => by
    rw [strLtb_cons_cons] at h1 h2
    rw [strLtb_cons_cons]
    have hyx : ¬ y.toNat < x.toNat := by
      intro hc; rw [if_pos hc] at h1; cases h1
    have hzy : ¬ z.toNat < y.toNat := by
      intro hc; rw [if_pos hc] at h2; cases h2
    rw [if_neg (show ¬ z.toNat < x.toNat by omega)]
    by_cases hxz : x.toNat < z.toNat
    · rw [if_pos hxz]
    · rw [if_neg hxz]
      rw [if_neg hyx, if_neg (show ¬ x.toNat < y.toNat by omega)] at h1
      rw [if_neg hzy, if_neg (show ¬ y.toNat < z.toNat by omega)] at h2
      exact strLtb_neg_trans as bs cs h1 h2

theorem leb_refl (a : String) : leb a a = true := by
  simp [leb, ltb, strLtb_irrefl]

theorem leb_total (a b : String) : leb a b = true ∨ leb b a = true := by
  by_cases h : strLtb b.data a.data = true
  · right
    simp only [leb, ltb, Bool.not_eq_true', strLtb_asymm _ _ h]
  · left
    simp only [leb, ltb, Bool.not_eq_true']
    simpa using h

theorem leb_trans {a b c : String} (h1 : leb a b = true) (h2 : leb b c = true) :
    leb a c = true := by
  simp only [leb, ltb, Bool.not_eq_true'] at h1 h2 ⊢
  exact strLtb_neg_trans a.data b.data c.data h1 h2

theorem ltb_leb {a b : String} (h : ltb a b = true) : leb a b = true := by
  simp only [leb, ltb, Bool.not_eq_true'] at *
  exact strLtb_asymm _ _ h

theorem not_ltb_leb {a b : String} (h : ltb a b = false) : leb b a = true := by
  simp only [leb, Bool.not_eq_true', h]

instance : IsTotal Item memberLe := ⟨fun a b => leb_total (tsOf a) (tsOf b)⟩

instance : IsTrans Item memberLe := ⟨fun _ _ _ => leb_trans⟩

instance : IsTotal (String × String) keyGe := ⟨fun a b => leb_total b.1 a.1⟩

instance : IsTrans (String × String) keyGe := ⟨fun _ _ _ h1 h2 => leb_trans h2 h1⟩

/-! ### Helper lemmas -/

theorem selectRelevantAux_eq (uq : String) :
    ∀ (l acc : List Item), acc.length < 3 →
      selectRelevantAux uq acc l = acc ++ (l.filter (isRelevant uq)).take (3 - acc.length)
  | [], acc, _ => by simp [selectRelevantAux]
  | c :: cs, acc, hacc => by
    rw [selectRelevantAux]
    by_cases hrel : isRelevant uq c
    · rw [if_pos hrel, List.filter_cons_of_pos hrel]
      by_cases hlen : 3 ≤ (acc ++ [c]).length
      · rw [if_pos hlen]
        have h2 : acc.length = 2 := by simp at hlen; omega
        have h1 : 3 - acc.length = 1 := by omega
        simp [h1, h2]
      · rw [if_neg hlen]
        have hlt : (acc ++ [c]).length < 3 := by omega
        rw [selectRelevantAux_eq uq cs (acc ++ [c]) hlt]
        have hx : 3 - acc.length = (3 - (acc ++ [c]).length) + 1 := by
          simp at hlt ⊢; omega
        rw [hx, List.take_succ_cons, List.append_assoc]
        simp
    · rw [if_neg hrel, List.filter_cons_of_neg hrel]
      exact selectRelevantAux_eq uq cs acc hacc

theorem relevant_corrections_eq (uq : String) (l : List Item) :
    relevant_corrections uq l = (l.filter (isRelevant uq)).take 3 := by
  rw [relevant_corrections, selectRelevantAux_eq uq l [] (by simp)]
  simp

theorem leb_maxStep_left (m : String) (x : Item) : leb m (maxStep m x) = true := by
  rw [maxStep]
  by_cases h : ltb m (tsOf x) = true
  · rw [if_pos h]; exact ltb_leb h
  · rw [if_neg h]; exact leb_refl m

theorem leb_maxStep_right (m : String) (x : Item) : leb (tsOf x) (maxStep m x) = true := by
  rw [maxStep]
  by_cases h : ltb m (tsOf x) = true
  · rw [if_pos h]; exact leb_refl _
  · rw [if_neg h]
    exact not_ltb_leb (by simpa using h)

theorem leb_foldl_maxStep_init : ∀ (l : List Item) (m : String),
    leb m (l.foldl maxStep m) = true
  | [], m => leb_refl m
  | x :: xs, m => by
    rw [List.foldl_cons]
    exact leb_trans (leb_maxStep_left m x) (leb_foldl_maxStep_init xs (maxStep m x))

theorem leb_foldl_maxStep_mem : ∀ (l : List Item) (m : String) (x : Item), x ∈ l →
    leb (tsOf x) (l.foldl maxStep m) = true
  | [], _, _, hx => absurd hx (List.not_mem_nil _)
  | y :: ys, m, x, hx => by
    rw [List.foldl_cons]
    rcases List.mem_cons.mp hx with rfl | hx
    · exact leb_trans (leb_maxStep_right m x) (leb_foldl_maxStep_init ys (maxStep m x))
    · exact leb_foldl_maxStep_mem ys (maxStep m y) x hx

theorem foldl_maxStep_mem : ∀ (l : List Item) (m : String),
    l.foldl maxStep m ∈ m :: l.map tsOf
  | [], m => List.mem_cons_self m []
  | x :: xs, m => by
    rw [List.foldl_cons]
    rcases List.mem_cons.mp (foldl_maxStep_mem xs (maxStep m x)) with h | h
    · rw [h, maxStep]
      by_cases hc : ltb m (tsOf x) = true
      · rw [if_pos hc]; simp
      · rw [if_neg hc]; simp
    · simp only [List.map_cons, List.mem_cons]
      tauto

theorem maxTs_mem (l : List Item) (hne : l ≠ []) : maxTs l ∈ l.map tsOf := by
  cases l with
  | nil => exact absurd rfl hne
  | cons it rest =>
    rw [maxTs]
    have := foldl_maxStep_mem rest (tsOf it)
    simp only [maxStep] at this ⊢
    simpa using this

theorem leb_maxTs (l : List Item) (x : Item) (hx : x ∈ l) :
    leb (tsOf x) (maxTs l) = true := by
  cases l with
  | nil => cases hx
  | cons it rest =>
    rw [maxTs]
    rcases List.mem_cons.mp hx with rfl | hx
    · exact leb_foldl_maxStep_init rest (tsOf x)
    · exact leb_foldl_maxStep_mem rest (tsOf it) x hx

theorem flatten_chunks_take {α : Type} (l : List α) (n : Nat) :
    ∀ k : Nat, ((List.range k).map (fun i => (l.drop (i * n)).take n)).flatten
      = l.take (k * n)
  | 0 => by simp
  | k + 1 => by
    rw [List.range_succ, List.map_append, List.flatten_append,
      flatten_chunks_take l n k]
    simp only [List.map_cons, List.map_nil, List.flatten_cons, List.flatten_nil,
      List.append_nil]
    rw [← List.take_add]
    congr 1
    ring

theorem flatten_all_pages {α : Type} (l : List α) (n : Nat) (hn : 1 ≤ n) :
    ((List.range ((l.length + n - 1) / n)).map (fun i => (l.drop (i * n)).take n)).flatten
      = l := by
  rw [flatten_chunks_take]
  apply List.take_of_length_le
  have hdm := Nat.div_add_mod (l.length + n - 1) n
  have hm : (l.length + n - 1) % n < n := Nat.mod_lt _ (by omega)
  have := Nat.mul_comm ((l.length + n - 1) / n) n
  omega

theorem length_filterMap_eq_countP {α β : Type} (f : α → Option β) :
    ∀ l : List α, (l.filterMap f).length = l.countP (fun x => (f x).isSome)
  | [] => rfl
  | x :: xs => by
    rw [List.filterMap_cons, List.countP_cons]
    cases h : f x with
    | none => simp [h, length_filterMap_eq_countP f xs]
    | some b => simp [h, length_filterMap_eq_countP f xs]

/-! ### Claims -/

/-- C2: for every `getHistory` call with `page ≥ 1` and `pageSize ≥ 1`,
pagination is applied to the ordered list of interaction groups, not to
individual records: `total_pages` is the ceiling of
`totalGroups / pageSize` (the code's `(totalGroups + limit - 1) // limit`,
characterised here by its two ceiling bounds), the returned slice covers
groups `[(page-1)*pageSize, page*pageSize)` clamped to the available
groups (its length is `min pageSize (totalGroups - (page-1)*pageSize)`,
so 25 groups with `pageSize = 10` give 5 groups on page 3), and every page
beyond the last yields an empty slice rather than an error. -/
theorem c2_getHistory_pagination (allItems : List Item) (page limit : Nat)
    (_hp : 1 ≤ page) (hl : 1 ≤ limit) :
    (handle_admin_history_request allItems page limit).total_pages
        = ((ordered_interaction_ids allItems).length + limit - 1) / limit
    ∧ (ordered_interaction_ids allItems).length
        ≤ (handle_admin_history_request allItems page limit).total_pages * limit
    ∧ (handle_admin_history_request allItems page limit).total_pages * limit
        < (ordered_interaction_ids allItems).length + limit
    ∧ paginated_interaction_ids allItems page limit
        = ((ordered_interaction_ids allItems).drop ((page - 1) * limit)).take limit
    ∧ (handle_admin_history_request allItems page limit).history
        = ((paginated_interaction_ids allItems page limit).map (sortedGroup allItems)).flatten
    ∧ (paginated_interaction_ids allItems page limit).length
        = min limit ((ordered_interaction_ids allItems).length - (page - 1) * limit)
    ∧ (∀ j : Nat, paginated_interaction_ids allItems
        ((handle_admin_history_request allItems page limit).total_pages + 1 + j) limit = []) := by
  have hq := Nat.div_add_mod ((ordered_interaction_ids allItems).length + limit - 1) limit
  have hr := Nat.mod_lt ((ordered_interaction_ids allItems).length + limit - 1)
    (show 0 < limit by omega)
  have hcomm : (((ordered_interaction_ids allItems).length + limit - 1) / limit) * limit
      = limit * (((ordered_interaction_ids allItems).length + limit - 1) / limit) :=
    Nat.mul_comm _ _
  have hceil : (ordered_interaction_ids allItems).length
      ≤ (((ordered_interaction_ids allItems).length + limit - 1) / limit) * limit := by
    omega
  have htp : (handle_admin_history_request allItems page limit).total_pages
      = ((ordered_interaction_ids allItems).length + limit - 1) / limit := rfl
  refine ⟨rfl, by rw [htp]; exact hceil, by rw [htp]; omega, rfl, rfl, ?_, ?_⟩
  · simp [paginated_interaction_ids, List.length_take, List.length_drop]
  · intro j
    rw [paginated_interaction_ids]
    have hidx : (handle_admin_history_request allItems page limit).total_pages + 1 + j - 1
        = (((ordered_interaction_ids allItems).length + limit - 1) / limit) + j := by
      rw [htp]; omega
    rw [hidx]
    rw [List.drop_eq_nil_of_le, List.take_nil]
    calc (ordered_interaction_ids allItems).length
        ≤ (((ordered_interaction_ids allItems).length + limit - 1) / limit) * limit := hceil
      _ ≤ ((((ordered_interaction_ids allItems).length + limit - 1) / limit) + j) * limit :=
          Nat.mul_le_mul_right limit (by omega)

/-- C2 witness: the theorem applied to the 25-group store with
`pageSize = 10`, `page = 3`; page 3 holds exactly 5 groups, page 4 is
empty, and there are 3 pages in total. -/
theorem c2_witness :
    (1 ≤ 3 ∧ 1 ≤ 10)
    ∧ (ordered_interaction_ids ex25).length = 25
    ∧ (paginated_interaction_ids ex25 3 10).length
        = min 10 ((ordered_interaction_ids ex25).length - (3 - 1) * 10)
    ∧ (paginated_interaction_ids ex25 3 10).length = 5
    ∧ paginated_interaction_ids ex25 4 10 = []
    ∧ (handle_admin_history_request ex25 3 10).total_pages = 3 :=
  ⟨⟨by decide, by decide⟩, by decide,
    (c2_getHistory_pagination ex25 3 10 (by decide) (by decide)).2.2.2.2.2.1,
    by decide, by decide, by decide⟩

/-- C3: for every `getHistory` call, the aggregate counts are computed over
the full fetched record set, independent of grouping and sorting — each
count is the stated filter over `all_items`, and a record missing a
timestamp or an interaction id still contributes to the entry count and to
its event-kind count (the counts over `all_items` equal the counts over
the record set without it, plus its own contribution), even though it is
absent from every group and from the flattened history payload. -/
theorem c3_counts_over_full_set (allItems : List Item) (it : Item) (page limit : Nat)
    (hmem : it ∈ allItems) (hmiss : it.InteractionId = none ∨ it.Timestamp = none) :
    (∀ iid, it ∉ sortedGroup allItems iid)
    ∧ it ∉ (handle_admin_history_request allItems page limit).history
    ∧ (handle_admin_history_request allItems page limit).totalIndividualLogEntries
        = (allItems.erase it).length + 1
    ∧ (∀ et, countEventType allItems et
        = countEventType (allItems.erase it) et
            + (if it.EventType == some et then 1 else 0))
    ∧ (handle_admin_history_request allItems page limit).totalQuestions
        = countEventType allItems "QUESTION"
    ∧ (handle_admin_history_request allItems page limit).totalAIResponses
        = countEventType allItems "AI_RESPONSE"
    ∧ (handle_admin_history_request allItems page limit).totalAdminCorrections
        = countEventType allItems "ADMIN_CORRECTION"
    ∧ (handle_admin_history_request allItems page limit).uniqueSessions
        = uniqueSessionCount (it :: allItems.erase it) := by
  have hperm : allItems.Perm (it :: allItems.erase it) := List.perm_cons_erase hmem
  have hgrp : ∀ iid, it ∉ sortedGroup allItems iid := by
    intro iid hmem'
    rw [sortedGroup, List.mem_insertionSort, List.mem_filter] at hmem'
    obtain ⟨hg, hts⟩ := hmem'
    rw [groupMembers, List.mem_filter] at hg
    rcases hmiss with hm | hm
    · have := hg.2
      rw [hm] at this
      simp at this
    · rw [hasTimestamp, hm] at hts
      simp at hts
  refine ⟨hgrp, ?_, ?_, ?_, rfl, rfl, rfl, ?_⟩
  · intro hmem'
    have : it ∈ ((paginated_interaction_ids allItems page limit).map
        (sortedGroup allItems)).flatten := hmem'
    rw [List.mem_flatten] at this
    obtain ⟨l, hl, hil⟩ := this
    rw [List.mem_map] at hl
    obtain ⟨iid, _, rfl⟩ := hl
    exact hgrp iid hil
  · have : allItems.length = (it :: allItems.erase it).length := hperm.length_eq
    simpa [handle_admin_history_request] using this
  · intro et
    rw [countEventType, countEventType, ← List.countP_eq_length_filter,
      ← List.countP_eq_length_filter, hperm.countP_eq, List.countP_cons]
  · show uniqueSessionCount allItems = uniqueSessionCount (it :: allItems.erase it)
    rw [uniqueSessionCount, uniqueSessionCount]
    exact List.Perm.length_eq
      (List.Perm.dedup (List.Perm.filter _ (List.Perm.filterMap _ hperm)))

/-- C3 witness: the theorem applied to a two-record set containing one
record without an `InteractionId`. -/
theorem c3_witness :
    item_without_interaction_id ∈ [item_without_interaction_id, timestampless_item]
    ∧ (item_without_interaction_id.InteractionId = none
        ∨ item_without_interaction_id.Timestamp = none)
    ∧ (handle_admin_history_request [item_without_interaction_id, timestampless_item] 1 10).totalIndividualLogEntries
        = (([item_without_interaction_id, timestampless_item]).erase item_without_interaction_id).length + 1 :=
  ⟨by decide, by decide,
    (c3_counts_over_full_set [item_without_interaction_id, timestampless_item]
      item_without_interaction_id 1 10 (by decide) (by decide)).2.2.1⟩

/-- C6: for every query, the matcher returns at most 3 corrections (the
code's hardcoded limit), selected from the at most 20 most recent
ADMIN_CORRECTION records fetched newest-first, kept in their original
fetch order and truncated to the limit — the selection equals the
relevance filter of the fetched list truncated to 3, hence it is a
sublist of the fetched list and is empty exactly when no candidate
qualifies, never an error. -/
theorem c6_matcher_bounded_selection (store : List Item) (user_query : String) :
    relevant_corrections user_query (recent_admin_corrections store)
        = ((recent_admin_corrections store).filter (isRelevant user_query)).take 3
    ∧ (relevant_corrections user_query (recent_admin_corrections store)).length ≤ 3
    ∧ (relevant_corrections user_query (recent_admin_corrections store)).Sublist
        (recent_admin_corrections store)
    ∧ (recent_admin_corrections store).length ≤ 20 := by
  have heq := relevant_corrections_eq user_query (recent_admin_corrections store)
  refine ⟨heq, ?_, ?_, ?_⟩
  · rw [heq, List.length_take]
    exact min_le_left _ _
  · rw [heq]
    exact (List.take_sublist _ _).trans (List.filter_sublist _)
  · rw [recent_admin_corrections, List.length_take]
    exact min_le_left _ _

/-- C7: when the backend read fails during correction matching, the
failure is surfaced to the caller rather than silently swallowed as a
normal result: the tool still returns (degraded, non-fatal), its reply is
the error message built from the backend error, and that reply is
distinguishable from every non-error reply — error replies start with
`'A'` while every successful reply starts with `'N'` (no match) or `'R'`
(relevant corrections found). -/
theorem c7_matcher_backend_error_surfaced (e user_query : String) (corrections : List Item) :
    get_relevant_admin_corrections (Except.error e) user_query
        = "An error occurred while retrieving admin corrections: " ++ e
    ∧ (get_relevant_admin_corrections (Except.error e) user_query).data.head? = some 'A'
    ∧ ((get_relevant_admin_corrections (Except.ok corrections) user_query).data.head? = some 'N'
        ∨ (get_relevant_admin_corrections (Except.ok corrections) user_query).data.head?
            = some 'R') := by
  refine ⟨rfl, ?_, ?_⟩
  · rw [show get_relevant_admin_corrections (Except.error e) user_query
        = "An error occurred while retrieving admin corrections: " ++ e from rfl]
    rw [String.data_append]
    rfl
  · rw [show get_relevant_admin_corrections (Except.ok corrections) user_query
        = (if (relevant_corrections user_query corrections).isEmpty then
            "No relevant administrative corrections found."
          else "Relevant past administrative corrections:\n" ++
            joinSep "\n---\n" ((relevant_corrections user_query corrections).map formatCorrection))
        from rfl]
    by_cases h : (relevant_corrections user_query corrections).isEmpty
    · left
      rw [if_pos h]
      rfl
    · right
      rw [if_neg h, String.data_append]
      rfl

/-- C8 counterexample: two requests with different sets of missing
required fields — one lacking only `sessionId`, the other lacking only
`correctedAIResponse` — receive bit-identical responses (HTTP 400 with the
fixed message `"Missing required fields for admin correction."`), so the
caller does not receive a precise list of the missing fields: the response
cannot distinguish which fields were missing. -/
theorem c8_no_precise_missing_list :
    missingRequiredFields req_missing_sessionId = ["sessionId"]
    ∧ missingRequiredFields req_missing_correctedAIResponse = ["correctedAIResponse"]
    ∧ handle_admin_correction req_missing_sessionId "2024-01-01T00:00:00.000Z" []
        = handle_admin_correction req_missing_correctedAIResponse "2024-01-01T00:00:00.000Z" []
    ∧ (handle_admin_correction req_missing_sessionId "2024-01-01T00:00:00.000Z" []).1.message
        = "Missing required fields for admin correction." := by
  decide

/-- C8 (amended): for every `recordCorrection` request in which at least
one required field is absent, the request is rejected with a validation
error (HTTP 400) before any store interaction occurs — the store is left
unchanged — and the caller receives the fixed generic message
`"Missing required fields for admin correction."` (not a list of the
specific missing fields; only a server-side log line names the required
fields, and it names all of them rather than the missing ones). -/
theorem c8_missing_field_rejected_before_store (req : CorrectionRequest)
    (now : String) (store : List Item)
    (h : req.sessionId = none ∨ req.interactionId = none ∨ req.userQuestion = none
          ∨ req.originalAIResponse = none ∨ req.correctedAIResponse = none) :
    handle_admin_correction req now store
      = (⟨400, "Missing required fields for admin correction."⟩, store) := by
  have hv : requiredFieldsPresent req = false := by
    rcases h with h | h | h | h | h <;>
      simp [requiredFieldsPresent, truthy, h]
  rw [handle_admin_correction, hv]
  simp

/-- C8 witness: the amended theorem applied to the request lacking
`sessionId`, against a singleton store that is indeed left unchanged. -/
theorem c8_witness :
    (req_missing_sessionId.sessionId = none
      ∨ req_missing_sessionId.interactionId = none
      ∨ req_missing_sessionId.userQuestion = none
      ∨ req_missing_sessionId.originalAIResponse = none
      ∨ req_missing_sessionId.correctedAIResponse = none)
    ∧ handle_admin_correction req_missing_sessionId "2024-01-02T00:00:00.000Z" ex_store
        = (⟨400, "Missing required fields for admin correction."⟩, ex_store) :=
  ⟨by decide,
    c8_missing_field_rejected_before_store req_missing_sessionId
      "2024-01-02T00:00:00.000Z" ex_store (by decide)⟩

theorem run_fetch_loop_of_chain {resp : Option Nat → List Item × Option Nat}
    {tok : Option Nat} {result : List Item} {n : Nat}
    (h : PageChain resp tok result n) :
    ∀ m : Nat, n ≤ m → run_fetch_loop resp m tok = some result := by
  induction h with
  | last tok items heq =>
    intro m hm
    match m, hm with
    | k + 1, _ => simp [run_fetch_loop, heq]
  | step tok items t rest n heq hch ih =>
    intro m hm
    match m, hm with
    | k + 1, hm =>
      have hk : n ≤ k := by omega
      simp [run_fetch_loop, heq, ih k hk]

/-- C9: for every backend response function (one for each event kind and
optional session filter), if the backend's continuation chain starting
from the initial request is finite — `n` pages whose concatenation is
`result` — then the fetch loop of `fetch_all_items_for_event_type`
terminates within `n` iterations (any fuel `m ≥ n` suffices, so the loop
never needs more requests than there are pages) and returns the
concatenation of every backend result page. -/
theorem c9_fetch_all_returns_every_page (resp : Option Nat → List Item × Option Nat)
    (result : List Item) (n m : Nat)
    (h : PageChain resp none result n) (hm : n ≤ m) :
    fetch_all_items_for_event_type resp m = some result :=
  run_fetch_loop_of_chain h m hm

/-- C9 witness: a two-page backend; the loop with fuel 2 returns both
pages concatenated. -/
theorem c9_witness :
    PageChain two_page_resp none (page_one ++ page_two) 2
    ∧ 2 ≤ 2
    ∧ fetch_all_items_for_event_type two_page_resp 2 = some (page_one ++ page_two) :=
  have hch : PageChain two_page_resp none (page_one ++ page_two) 2 :=
    PageChain.step none page_one 1 page_two 1 rfl
      (PageChain.last (some 1) page_two rfl)
  ⟨hch, by decide, c9_fetch_all_returns_every_page two_page_resp (page_one ++ page_two) 2 2
    hch (by decide)⟩

/-- C10: an interaction group none of whose member records carries a
`Timestamp` is omitted entirely from the ordered group list — its sorted
view is empty, its id appears neither in `ordered_interaction_ids` nor on
any page — and it is excluded from `totalInteractionGroups` (which counts
only the groups with at least one timestamped member) and hence from
`totalPages`, even though its records are a sublist of `all_items` and
every summary count is computed over `all_items`. -/
theorem c10_timestampless_group_omitted (allItems : List Item) (iid : String)
    (page limit : Nat)
    (h : ∀ it ∈ groupMembers allItems iid, it.Timestamp = none) :
    sortedGroup allItems iid = []
    ∧ iid ∉ ordered_interaction_ids allItems
    ∧ iid ∉ paginated_interaction_ids allItems page limit
    ∧ (handle_admin_history_request allItems page limit).totalInteractionGroups
        = ((groupKeys allItems).filter
            (fun i => !(sortedGroup allItems i).isEmpty)).length
    ∧ (handle_admin_history_request allItems page limit).total_pages
        = (((groupKeys allItems).filter
            (fun i => !(sortedGroup allItems i).isEmpty)).length + limit - 1) / limit
    ∧ (groupMembers allItems iid).Sublist allItems
    ∧ (handle_admin_history_request allItems page limit).totalIndividualLogEntries
        = allItems.length
    ∧ (handle_admin_history_request allItems page limit).totalQuestions
        = countEventType allItems "QUESTION" := by
  have hsg : sortedGroup allItems iid = [] := by
    rw [sortedGroup, List.filter_eq_nil_iff.mpr]
    · rfl
    · intro it hit
      rw [hasTimestamp, h it hit]
      simp
  have hlen : (ordered_interaction_ids allItems).length
      = ((groupKeys allItems).filter
          (fun i => !(sortedGroup allItems i).isEmpty)).length := by
    rw [ordered_interaction_ids, List.length_map, orderedInteractionKeys,
      List.length_insertionSort, interactionIdSortKeys, length_filterMap_eq_countP]
    rw [show ((groupKeys allItems).filter
        (fun i => !(sortedGroup allItems i).isEmpty)).length
      = (groupKeys allItems).countP (fun i => !(sortedGroup allItems i).isEmpty)
      from (List.countP_eq_length_filter _ _).symm]
    apply List.countP_congr
    intro i _
    by_cases hie : (sortedGroup allItems i).isEmpty
    · simp [hie]
    · simp [hie]
  have hnotmem : iid ∉ ordered_interaction_ids allItems := by
    intro hmem
    rw [ordered_interaction_ids, List.mem_map] at hmem
    obtain ⟨p, hp, hsnd⟩ := hmem
    rw [orderedInteractionKeys, List.mem_insertionSort, interactionIdSortKeys,
      List.mem_filterMap] at hp
    obtain ⟨j, _, hfj⟩ := hp
    by_cases hje : (sortedGroup allItems j).isEmpty
    · simp [hje] at hfj
    · simp only [hje] at hfj
      rw [if_neg (by simp)] at hfj
      have hj : j = iid := by
        have := congrArg Prod.snd (Option.some.inj hfj)
        simpa [hsnd] using this
      rw [hj, hsg] at hje
      simp at hje
  refine ⟨hsg, hnotmem, ?_, hlen, ?_, List.filter_sublist allItems, rfl, rfl⟩
  · intro hmem
    exact hnotmem (((List.take_sublist _ _).trans (List.drop_sublist _ _)).subset hmem)
  · show total_pages_of allItems limit = _
    rw [total_pages_of, hlen]

/-- C10 witness: the theorem applied to a store whose only interaction
group `"g1"` has a single, timestamp-less member. -/
theorem c10_witness :
    (∀ it ∈ groupMembers [timestampless_item] "g1", it.Timestamp = none)
    ∧ "g1" ∉ ordered_interaction_ids [timestampless_item]
    ∧ (handle_admin_history_request [timestampless_item] 1 10).totalIndividualLogEntries
        = 1 :=
  ⟨by decide,
    (c10_timestampless_group_omitted [timestampless_item] "g1" 1 10 (by decide)).2.1,
    by decide⟩

/-- C5: for every query string and every candidate correction, the matcher
judges the candidate relevant if and only if some lowercase word token of
the query longer than 2 characters appears verbatim among the word tokens
of the combined lowercased `UserQuestion` / `OriginalAIResponse` /
`Content` text of the candidate (token-set membership, not substring
matching); in particular the correction with content
`"unlimited mileage applies to all rentals"` is relevant to the query
`"does mileage have limits"` and not to `"insurance coverage"`. -/
theorem c5_relevance_characterization :
    (∀ (user_query : String) (c : Item),
        isRelevant user_query c = true ↔
          ∃ t ∈ findWordTokens (toLowerStr user_query),
            2 < t.length ∧ t ∈ findWordTokens (correction_text c))
    ∧ isRelevant "does mileage have limits" mileage_correction = true
    ∧ isRelevant "insurance coverage" mileage_correction = false := by
  refine ⟨?_, by decide, by decide⟩
  intro user_query c
  simp only [isRelevant, List.any_eq_true, Bool.and_eq_true, decide_eq_true_eq]

/-- C1: for every `getHistory` call, the interaction groups are ordered
descending by their sort key — the maximum timestamp among the group's
timestamp-bearing members (every key both bounds the timestamped members
from above and is attained by one of them) — and within each group the
member records are ordered ascending by timestamp with timestamp-less
members excluded from the sorted view; concatenating the pages in page
order reproduces the whole descending group order, so groups with keys
`T1 > T2 > T3` appear in that order across pages. -/
theorem c1_getHistory_group_ordering (allItems : List Item) (limit : Nat)
    (hl : 1 ≤ limit) :
    List.Sorted keyGe (orderedInteractionKeys allItems)
    ∧ (∀ iid, List.Sorted memberLe (sortedGroup allItems iid))
    ∧ (∀ iid, ∀ it ∈ sortedGroup allItems iid, hasTimestamp it = true)
    ∧ (∀ k ∈ orderedInteractionKeys allItems,
        (∀ it ∈ groupMembers allItems k.2, hasTimestamp it = true →
            leb (tsOf it) k.1 = true)
        ∧ (∃ it ∈ groupMembers allItems k.2, hasTimestamp it = true ∧ tsOf it = k.1))
    ∧ ((List.range (total_pages_of allItems limit)).map
        (fun i => paginated_interaction_ids allItems (i + 1) limit)).flatten
        = ordered_interaction_ids allItems := by
  refine ⟨List.sorted_insertionSort keyGe _,
    fun iid => List.sorted_insertionSort memberLe _, ?_, ?_, ?_⟩
  · intro iid it hit
    rw [sortedGroup, List.mem_insertionSort, List.mem_filter] at hit
    exact hit.2
  · intro k hk
    rw [orderedInteractionKeys, List.mem_insertionSort, interactionIdSortKeys,
      List.mem_filterMap] at hk
    obtain ⟨j, _, hfj⟩ := hk
    by_cases hje : (sortedGroup allItems j).isEmpty
    · simp [hje] at hfj
    · simp only [hje] at hfj
      rw [if_neg (by simp)] at hfj
      have hk2 : k = (maxTs (sortedGroup allItems j), j) := (Option.some.inj hfj).symm
      subst hk2
      constructor
      · intro it hmem hts
        have hin : it ∈ sortedGroup allItems j := by
          rw [sortedGroup, List.mem_insertionSort, List.mem_filter]
          exact ⟨hmem, hts⟩
        exact leb_maxTs _ it hin
      · have hne : sortedGroup allItems j ≠ [] := by
          intro hh
          rw [hh] at hje
          simp at hje
        have hmm := maxTs_mem (sortedGroup allItems j) hne
        rw [List.mem_map] at hmm
        obtain ⟨it, hin, hts⟩ := hmm
        rw [sortedGroup, List.mem_insertionSort, List.mem_filter] at hin
        exact ⟨it, hin.1, hin.2, hts⟩
  · simp only [paginated_interaction_ids, Nat.add_sub_cancel, total_pages_of]
    exact flatten_all_pages _ _ hl

/-- C1 witness: the theorem applied to the 25-group store with
`pageSize = 10`. -/
theorem c1_witness :
    1 ≤ 10
    ∧ List.Sorted keyGe (orderedInteractionKeys ex25)
    ∧ ((List.range (total_pages_of ex25 10)).map
        (fun i => paginated_interaction_ids ex25 (i + 1) 10)).flatten
        = ordered_interaction_ids ex25 :=
  ⟨by decide, (c1_getHistory_group_ordering ex25 10 (by decide)).1,
    (c1_getHistory_group_ordering ex25 10 (by decide)).2.2.2.2⟩

/-- C4: after appending one QUESTION record and one AI_RESPONSE record
sharing a single interaction id (the question logged with the earlier
timestamp) to an otherwise empty store, `getHistory` with no session
filter, `page = 1` and `pageSize = 10` returns exactly one interaction
group containing both records, ordered question then answer. -/
theorem c4_roundtrip_one_exchange (sid q a iid ts1 ts2 : String)
    (hiid : iid ≠ "") (hts : strLtb ts1.data ts2.data = true) :
    ordered_interaction_ids (fetched_all_items
        (_log_ai_response (_log_user_question [] sid q iid ts1) sid a q iid ts2) none)
      = [iid]
    ∧ (getHistory (_log_ai_response (_log_user_question [] sid q iid ts1) sid a q iid ts2)
        none 1 10).totalInteractionGroups = 1
    ∧ (getHistory (_log_ai_response (_log_user_question [] sid q iid ts1) sid a q iid ts2)
        none 1 10).history
      = [question_item sid q iid ts1, ai_response_item sid a q iid ts2] := by
  have hstore : _log_ai_response (_log_user_question [] sid q iid ts1) sid a q iid ts2
      = [question_item sid q iid ts1, ai_response_item sid a q iid ts2] := rfl
  have hfa : fetched_all_items
      [question_item sid q iid ts1, ai_response_item sid a q iid ts2] none
      = [ai_response_item sid a q iid ts2, question_item sid q iid ts1] := by
    simp [fetched_all_items, queryIndexItems, question_item, ai_response_item,
      hasTimestamp, truthy, List.filter_cons, List.insertionSort, List.orderedInsert,
      show ((some "QUESTION" : Option String) == some "AI_RESPONSE") = false from rfl,
      show ((some "AI_RESPONSE" : Option String) == some "AI_RESPONSE") = true from rfl,
      show ((some "QUESTION" : Option String) == some "QUESTION") = true from rfl,
      show ((some "AI_RESPONSE" : Option String) == some "QUESTION") = false from rfl,
      show ((some "QUESTION" : Option String) == some "ADMIN_CORRECTION") = false from rfl,
      show ((some "AI_RESPONSE" : Option String) == some "ADMIN_CORRECTION") = false from rfl]
  have hgm : groupMembers
      [ai_response_item sid a q iid ts2, question_item sid q iid ts1] iid
      = [ai_response_item sid a q iid ts2, question_item sid q iid ts1] := by
    simp [groupMembers, List.filter_cons, question_item, ai_response_item]
  have hmQA : ¬ memberLe (ai_response_item sid a q iid ts2) (question_item sid q iid ts1) := by
    simp [memberLe, tsOf, question_item, ai_response_item, leb, ltb, hts]
  have hsg : sortedGroup
      [ai_response_item sid a q iid ts2, question_item sid q iid ts1] iid
      = [question_item sid q iid ts1, ai_response_item sid a q iid ts2] := by
    rw [sortedGroup, hgm]
    rw [show ([ai_response_item sid a q iid ts2, question_item sid q iid ts1].filter
          hasTimestamp)
        = [ai_response_item sid a q iid ts2, question_item sid q iid ts1] from by
      simp [hasTimestamp, question_item, ai_response_item, List.filter_cons]]
    simp only [List.insertionSort, List.orderedInsert]
    rw [if_neg hmQA]
  have hgk : groupKeys [ai_response_item sid a q iid ts2, question_item sid q iid ts1]
      = [iid] := by
    simp [groupKeys, question_item, ai_response_item, hiid]
  have hmax : maxTs [question_item sid q iid ts1, ai_response_item sid a q iid ts2]
      = ts2 := by
    simp [maxTs, maxStep, tsOf, question_item, ai_response_item, ltb, hts]
  have hkeys : interactionIdSortKeys
      [ai_response_item sid a q iid ts2, question_item sid q iid ts1]
      = [(ts2, iid)] := by
    rw [interactionIdSortKeys, hgk]
    simp [hsg, hmax]
  have hord : ordered_interaction_ids
      [ai_response_item sid a q iid ts2, question_item sid q iid ts1]
      = [iid] := by
    rw [ordered_interaction_ids, orderedInteractionKeys, hkeys]
    simp [List.insertionSort, List.orderedInsert]
  refine ⟨by rw [hstore, hfa]; exact hord, ?_, ?_⟩
  · show (ordered_interaction_ids (fetched_all_items _ none)).length = 1
    rw [hstore, hfa, hord]
    rfl
  · show ((paginated_interaction_ids (fetched_all_items _ none) 1 10).map
        (sortedGroup (fetched_all_items _ none))).flatten = _
    rw [hstore, hfa]
    rw [paginated_interaction_ids, hord]
    simp [hsg]

/-- C4 witness: the theorem applied to a concrete question/answer pair. -/
theorem c4_witness :
    ("i1" : String) ≠ ""
    ∧ strLtb "2024-01-01T00:00:00.000Z".data "2024-01-01T00:00:05.000Z".data = true
    ∧ (getHistory ex_store none 1 10).history
       = [question_item "s1" "does mileage have limits" "i1" "2024-01-01T00:00:00.000Z",
          ai_response_item "s1" "our rentals include unlimited mileage"
            "does mileage have limits" "i1" "2024-01-01T00:00:05.000Z"] :=
  ⟨by decide, by decide,
    (c4_roundtrip_one_exchange "s1" "does mileage have limits"
      "our rentals include unlimited mileage" "i1" "2024-01-01T00:00:00.000Z"
      "2024-01-01T00:00:05.000Z" (by decide) (by decide)).2.2⟩

end FairBot
